import Mathlib

/-!
Shallow embedding of `nu_plugin_qr` (src/main.rs), a nushell plugin with two
commands: `from qr` (decode a QR raster image into text or binary) and
`to qr` (encode a payload into a PNG image of a QR code).

Modelling conventions:
* Rust byte buffers (`Vec<u8>`, `&[u8]`) are `List Nat`.
* Rust `String`s that carry payload data are modelled by their UTF-8 byte
  sequences (`List Nat`); `String::from_utf8` succeeding on a byte vector is
  modelled by the executable validity checker `utf8Check` below, which
  implements the UTF-8 well-formedness table that `String::from_utf8` checks.
* Diagnostic strings (error labels/messages, format names) are Lean `String`s.
* `nu_protocol` spans are abstract `Nat` tags.
* The external primitives (the `fast_qr` generator and renderer, the `image`
  container codec, the `quircs` finder/decoder) are out of the repository;
  their per-call outcomes are inputs of the embedded pipelines: the decode
  pipeline receives the format guess, the container-load outcome and the list
  of candidate outcomes the finder/decoder chain produced, and the encode
  pipeline receives the generator/renderer/PNG-encoder behaviour as function
  parameters (`Externals`).
-/

namespace NuQr

/-- A continuation byte `0x80..=0xBF` of a multi-byte UTF-8 sequence. -/
def utf8Cont (b : Nat) : Bool := 0x80 ≤ b && b ≤ 0xBF

/-- UTF-8 well-formedness of a byte sequence, exactly the condition under which
Rust's `String::from_utf8` returns `Ok` (RFC 3629 table: no overlong forms, no
surrogates, nothing above U+10FFFF). -/
def utf8Check : List Nat → Bool
  | [] => true
  | b :: rest =>
    if b < 0x80 then utf8Check rest
    else if 0xC2 ≤ b && b ≤ 0xDF then
      match rest with
      | b1 :: rest2 => utf8Cont b1 && utf8Check rest2
      | [] => false
    else if b = 0xE0 then
      match rest with
      | b1 :: b2 :: rest2 => (0xA0 ≤ b1 && b1 ≤ 0xBF) && utf8Cont b2 && utf8Check rest2
      | _ => false
    else if (0xE1 ≤ b && b ≤ 0xEC) || b = 0xEE || b = 0xEF then
      match rest with
      | b1 :: b2 :: rest2 => utf8Cont b1 && utf8Cont b2 && utf8Check rest2
      | _ => false
    else if b = 0xED then
      match rest with
      | b1 :: b2 :: rest2 => (0x80 ≤ b1 && b1 ≤ 0x9F) && utf8Cont b2 && utf8Check rest2
      | _ => false
    else if b = 0xF0 then
      match rest with
      | b1 :: b2 :: b3 :: rest2 =>
        (0x90 ≤ b1 && b1 ≤ 0xBF) && utf8Cont b2 && utf8Cont b3 && utf8Check rest2
      | _ => false
    else if 0xF1 ≤ b && b ≤ 0xF3 then
      match rest with
      | b1 :: b2 :: b3 :: rest2 =>
        utf8Cont b1 && utf8Cont b2 && utf8Cont b3 && utf8Check rest2
      | _ => false
    else if b = 0xF4 then
      match rest with
      | b1 :: b2 :: b3 :: rest2 =>
        (0x80 ≤ b1 && b1 ≤ 0x8F) && utf8Cont b2 && utf8Cont b3 && utf8Check rest2
      | _ => false
    else false

/-- `nu_plugin::LabeledError { label, msg, span }`. -/
structure LabeledError where
  label : String
  msg : String
  span : Option Nat
deriving DecidableEq, Repr

/-- The two output variants the plugin produces: `Value::String` (modelled by
its UTF-8 bytes) and `Value::Binary`, each carrying a span. -/
inductive QValue where
  | str (val : List Nat) (span : Nat)
  | binary (val : List Nat) (span : Nat)
deriving DecidableEq, Repr

/-- Outcome of one symbol candidate in the `decoder.identify(..)` loop:
the iterator item is `Err e` (identification failed), or `Ok data` whose
`data.decode()` is `Err e` (decode failed) or `Ok data` with a payload. -/
inductive CandidateResult where
  | identFail (e : String)
  | decodeFail (e : String)
  | ok (payload : List Nat)
deriving DecidableEq, Repr

/-- The payload of a successfully decoded candidate, if any. -/
def CandidateResult.payload : CandidateResult → Option (List Nat)
  | .ok p => some p
  | _ => none

/-- The `LabeledError` the candidate loop returns for a failing candidate when
`ignore-error` is not set (`none` for a successful candidate). -/
def failErrorOf (inputSpan : Nat) : CandidateResult → Option LabeledError
  | .identFail e =>
      some ⟨"input contains incorrect data",
            "part of data can not be identified: " ++ e, some inputSpan⟩
  | .decodeFail e =>
      some ⟨"input contains incorrect data",
            "identified data can not be decoded: " ++ e, some inputSpan⟩
  | .ok _ => none

/-- The candidate loop of the `from qr` branch (src/main.rs lines 76-114):
walk the finder's candidates in order, push each decoded payload, and on a
failure either abort with a `LabeledError` (when `ignore_error` is false) or
skip the candidate (the `eprintln` diagnostic is not part of the value). -/
def collectPayloads (ignore_error : Bool) (inputSpan : Nat) :
    List CandidateResult → Except LabeledError (List (List Nat))
  | [] => .ok []
  | .ok payload :: rest =>
      match collectPayloads ignore_error inputSpan rest with
      | .ok v => .ok (payload :: v)
      | .error e => .error e
  | .decodeFail e :: rest =>
      if ignore_error then collectPayloads ignore_error inputSpan rest
      else .error ⟨"input contains incorrect data",
                   "identified data can not be decoded: " ++ e, some inputSpan⟩
  | .identFail e :: rest =>
      if ignore_error then collectPayloads ignore_error inputSpan rest
      else .error ⟨"input contains incorrect data",
                   "part of data can not be identified: " ++ e, some inputSpan⟩

/-- The `string_buf` loop (src/main.rs lines 115-122): convert payloads to
strings in order, stopping at the first payload that is not valid UTF-8. -/
def stringBuf : List (List Nat) → List (List Nat)
  | [] => []
  | d :: rest => if utf8Check d then d :: stringBuf rest else []

/-- The output classification (src/main.rs lines 123-133): if every payload
converted (`string_buf.len() == v.len()`), return `Value::String` with the
strings joined by a newline; otherwise return `Value::Binary` with the
flattened concatenation of all payloads. -/
def classify (callHead : Nat) (v : List (List Nat)) : QValue :=
  let sb := stringBuf v
  if sb.length = v.length then .str (List.intercalate [10] sb) callHead
  else .binary v.flatten callHead

/-- `format_image` (src/main.rs lines 244-253). -/
def format_image (format : String) (extension : List String) : String :=
  match extension.length with
  | 0 => format ++ " (unknown extension)"
  | _ => format ++ " (" ++ String.intercalate ", " extension ++ ")"

/-- Per-call inputs of the `from qr` branch: the outcome of
`image::guess_format` (extensions and mime type when it succeeded), the
outcome of `image::load_from_memory` (`some e` is the codec error), the
candidate outcomes the `quircs` finder/decoder chain yields on the loaded
image, and the spans. `inputSpan` is `input.span().unwrap_or(call.head)`. -/
structure FromQrEnv where
  guess : Option (List String × String)
  loadErr : Option String
  candidates : List CandidateResult
  callHead : Nat
  inputSpan : Nat

/-- The `from qr` branch of `run` (src/main.rs lines 65-141). -/
def fromQr (env : FromQrEnv) (ignore_error : Bool) : Except LabeledError QValue :=
  let format := env.guess.getD ([], "unknown")
  match env.loadErr with
  | some e =>
      .error ⟨"Unable to open image: " ++ e,
              "Input is guessed as " ++ format_image format.2 format.1,
              some env.inputSpan⟩
  | none =>
      match collectPayloads ignore_error env.inputSpan env.candidates with
      | .error err => .error err
      | .ok v => .ok (classify env.callHead v)

/-- `fast_qr::convert::Shape`, the closed set of module shapes the plugin
accepts. -/
inductive Shape where
  | Square
  | Circle
  | RoundedSquare
  | Vertical
  | Horizontal
  | Diamond
deriving DecidableEq, Repr

/-- Rust `str::to_uppercase`, modelled as the per-character uppercase map
(on the ASCII shape names involved here this agrees with full Unicode
uppercasing). -/
def rustToUppercase (s : String) : String := ⟨s.data.map Char.toUpper⟩

/-- The shape resolution of the `to qr` branch (src/main.rs lines 144-160):
uppercase the optional flag value and match it exactly against the six
recognized names; an unset flag is `Square`; anything else is a
`LabeledError`. -/
def resolveShape (shape_name : Option String) (callHead : Nat) :
    Except LabeledError Shape :=
  match shape_name.map (fun x => rustToUppercase x) with
  | some "SQUARE" => .ok .Square
  | some "CIRCLE" => .ok .Circle
  | some "ROUNDEDSQUARE" => .ok .RoundedSquare
  | some "VERTICAL" => .ok .Vertical
  | some "HORIZONTAL" => .ok .Horizontal
  | some "DIAMOND" => .ok .Diamond
  | none => .ok .Square
  | _ => .error ⟨"Unknown shape parameter",
      "should be one of Square, Circle, RoundedSquare, Vertical, Horizontal, Diamond",
      some callHead⟩

/-- One sizing call the `to qr` branch makes on the `fast_qr` `ImageBuilder`. -/
inductive SizeCall where
  | fitWidth (w : Nat)
  | fitHeight (h : Nat)
deriving DecidableEq, Repr

/-- The `fast_qr` `ImageBuilder`, modelled by the configuration calls the
plugin performs on it: the shape set by `builder.shape(..)` and the sizing
calls, recorded in call order. -/
structure ImageBuilder where
  shape : Shape
  sizeCalls : List SizeCall
deriving DecidableEq, Repr

/-- `ImageBuilder::default()` before the plugin configures it (no sizing call
made yet; the shape field is overwritten by `builder.shape(shape)` before any
rendering). -/
def ImageBuilder.default : ImageBuilder := ⟨.Square, []⟩

/-- `builder.shape(s)`. -/
def ImageBuilder.setShape (b : ImageBuilder) (s : Shape) : ImageBuilder :=
  { b with shape := s }

/-- `builder.fit_width(w)`. -/
def ImageBuilder.fit_width (b : ImageBuilder) (w : Nat) : ImageBuilder :=
  { b with sizeCalls := b.sizeCalls ++ [.fitWidth w] }

/-- `builder.fit_height(h)`. -/
def ImageBuilder.fit_height (b : ImageBuilder) (h : Nat) : ImageBuilder :=
  { b with sizeCalls := b.sizeCalls ++ [.fitHeight h] }

/-- `u32::MAX`. -/
def u32MAX : Nat := 4294967295

/-- The error returned by the catch-all arm of the width/height match. -/
def sizeError (callHead : Nat) : LabeledError :=
  ⟨"Invalid width/height: too large",
   "width/height should be smaller than " ++ toString u32MAX, some callHead⟩

/-- The width/height match of the `to qr` branch (src/main.rs lines 191-215):
guards check each provided value against `u32::MAX`; any case failing its
guard falls to the catch-all error arm. Note the first arm calls `fit_width`
twice (`builder.fit_width(w as u32).fit_width(h as u32)`). -/
def applySize (b : ImageBuilder) (width height : Option Nat) (callHead : Nat) :
    Except LabeledError ImageBuilder :=
  match width, height with
  | some w, some h =>
      if w < u32MAX && h < u32MAX then .ok ((b.fit_width w).fit_width h)
      else .error (sizeError callHead)
  | some w, none =>
      if w < u32MAX then .ok (b.fit_width w) else .error (sizeError callHead)
  | none, some h =>
      if h < u32MAX then .ok (b.fit_height h) else .error (sizeError callHead)
  | none, none => .ok (b.fit_width 600)

/-- The behaviour of the external `fast_qr` primitives for one call:
`QRBuilder::new(input).build()` (the QR code value is abstracted to a `Nat`
handle), `builder.to_pixmap(&image)` (pixmap handle), and
`pixmap.encode_png()`. -/
structure Externals where
  build : List Nat → Except String Nat
  toPixmap : ImageBuilder → Nat → Nat
  encodePng : Nat → Except String (List Nat)

/-- The evaluated call parameters of the `to qr` branch. `background` is the
`-b` flag, accepted by the signature but only referenced from commented-out
code. `inputSpan` is `input.span().unwrap_or(call.head)`. -/
structure ToQrParams where
  input : List Nat
  shape_name : Option String
  width : Option Nat
  height : Option Nat
  background : Option (List Int)
  callHead : Nat
  inputSpan : Nat

/-- The `to qr` branch of `run` (src/main.rs lines 142-234): resolve the
shape, build the QR code from the payload, configure the image builder
(shape, then sizing), and PNG-encode the rendered pixmap. -/
def toQr (ext : Externals) (p : ToQrParams) : Except LabeledError QValue :=
  match resolveShape p.shape_name p.callHead with
  | .error e => .error e
  | .ok shape =>
    match ext.build p.input with
    | .error e => .error ⟨"failed to generate qr code", e, some p.inputSpan⟩
    | .ok image =>
      let builder := ImageBuilder.default.setShape shape
      match applySize builder p.width p.height p.callHead with
      | .error e => .error e
      | .ok builder =>
        match ext.encodePng (ext.toPixmap builder image) with
        | .ok buf => .ok (.binary buf p.callHead)
        | .error e => .error ⟨"failed to generate png", e, some p.callHead⟩

/-- Spec-side table of recognized shape names ("Recognized names
(case-insensitive exact match after upper-casing): Square, Circle,
RoundedSquare, Vertical, Horizontal, Diamond"), for comparison with
`resolveShape`. -/
def specShapeOfName (u : String) : Option Shape :=
  if u = "SQUARE" then some .Square
  else if u = "CIRCLE" then some .Circle
  else if u = "ROUNDEDSQUARE" then some .RoundedSquare
  else if u = "VERTICAL" then some .Vertical
  else if u = "HORIZONTAL" then some .Horizontal
  else if u = "DIAMOND" then some .Diamond
  else none

/-- Spec-side shape resolution (spec 4.2): unset input is Square, a recognized
name (after upper-casing) maps to its variant, anything else is the hard input
error naming the allowed set. -/
def specResolveShape (shape_name : Option String) (callHead : Nat) :
    Except LabeledError Shape :=
  match shape_name with
  | none => .ok .Square
  | some s =>
    match specShapeOfName (rustToUppercase s) with
    | some sh => .ok sh
    | none => .error ⟨"Unknown shape parameter",
        "should be one of Square, Circle, RoundedSquare, Vertical, Horizontal, Diamond",
        some callHead⟩

/-! Helper lemmas about the candidate loop and the output classification. -/

theorem stringBuf_of_all (v : List (List Nat)) (h : ∀ d ∈ v, utf8Check d) :
    stringBuf v = v := by
  induction v with
  | nil => rfl
  | cons d rest ih =>
    have hd : utf8Check d := h d (by simp)
    simp [stringBuf, hd, ih fun x hx => h x (by simp [hx])]

theorem stringBuf_length_lt (v : List (List Nat))
    (h : ∃ d ∈ v, utf8Check d = false) : (stringBuf v).length < v.length := by
  induction v with
  | nil => simp at h
  | cons d rest ih =>
    by_cases hd : utf8Check d
    · have : ∃ x ∈ rest, utf8Check x = false := by
        rcases h with ⟨x, hx, hfx⟩
        rcases List.mem_cons.mp hx with h1 | h2
        · rw [h1] at hfx; rw [hd] at hfx; cases hfx
        · exact ⟨x, h2, hfx⟩
      simpa [stringBuf, hd] using ih this
    · simp [stringBuf, hd]

theorem classify_of_all (head : Nat) (v : List (List Nat))
    (h : ∀ d ∈ v, utf8Check d) :
    classify head v = .str (List.intercalate [10] v) head := by
  simp [classify, stringBuf_of_all v h]

theorem classify_of_not_all (head : Nat) (v : List (List Nat))
    (h : ¬ ∀ d ∈ v, utf8Check d) :
    classify head v = .binary v.flatten head := by
  have hlt : (stringBuf v).length < v.length := by
    refine stringBuf_length_lt v ?_
    push_neg at h
    rcases h with ⟨d, hd, hfd⟩
    exact ⟨d, hd, by simpa using hfd⟩
  simp [classify, Nat.ne_of_lt hlt]

theorem fromQr_ok_of_collect (env : FromQrEnv) (ign : Bool) (v : List (List Nat))
    (hload : env.loadErr = none)
    (hcol : collectPayloads ign env.inputSpan env.candidates = .ok v) :
    fromQr env ign = .ok (classify env.callHead v) := by
  simp [fromQr, hload, hcol]

theorem collectPayloads_ignore (sp : Nat) (cs : List CandidateResult) :
    collectPayloads true sp cs = .ok (cs.filterMap CandidateResult.payload) := by
  induction cs with
  | nil => rfl
  | cons c rest ih => cases c <;> simp [collectPayloads, CandidateResult.payload, ih]

theorem collectPayloads_failfast (sp : Nat) (pre : List CandidateResult)
    (c : CandidateResult) (post : List CandidateResult) (err : LabeledError)
    (hpre : ∀ p ∈ pre, (CandidateResult.payload p).isSome)
    (hc : failErrorOf sp c = some err) :
    collectPayloads false sp (pre ++ c :: post) = .error err := by
  induction pre with
  | nil =>
    cases c with
    | identFail e =>
      simp only [failErrorOf, Option.some.injEq] at hc
      simp [collectPayloads, hc]
    | decodeFail e =>
      simp only [failErrorOf, Option.some.injEq] at hc
      simp [collectPayloads, hc]
    | ok p => simp [failErrorOf] at hc
  | cons p pre ih =>
    cases p with
    | identFail e => simp [CandidateResult.payload] at hpre
    | decodeFail e => simp [CandidateResult.payload] at hpre
    | ok pl =>
      have : collectPayloads false sp (pre ++ c :: post) = .error err :=
        ih fun x hx => hpre x (by simp [hx])
      simp [collectPayloads, this]

/-- C1: for every decode call that completes without a fatal error
(container load succeeded and the candidate loop returned the payload list
`v`), the result is `Value::String` if and only if every successfully decoded
payload is valid UTF-8; in that case the output is the payloads joined by a
single newline (no leading/trailing newline), and otherwise it is
`Value::Binary` holding the undelimited concatenation of all payloads in
encounter order. -/
theorem decode_text_iff_all_utf8 (env : FromQrEnv) (ign : Bool)
    (v : List (List Nat)) (hload : env.loadErr = none)
    (hcol : collectPayloads ign env.inputSpan env.candidates = .ok v) :
    ((∃ s sp, fromQr env ign = .ok (.str s sp)) ↔ ∀ d ∈ v, utf8Check d) ∧
    ((∀ d ∈ v, utf8Check d) →
      fromQr env ign = .ok (.str (List.intercalate [10] v) env.callHead)) ∧
    ((¬ ∀ d ∈ v, utf8Check d) →
      fromQr env ign = .ok (.binary v.flatten env.callHead)) := by
  have hok : fromQr env ign = .ok (classify env.callHead v) :=
    fromQr_ok_of_collect env ign v hload hcol
  refine ⟨⟨?_, ?_⟩, ?_, ?_⟩
  · rintro ⟨s, sp, hs⟩
    by_contra hall
    rw [hok, classify_of_not_all _ _ hall] at hs
    simp at hs
  · intro hall
    exact ⟨_, _, by rw [hok, classify_of_all _ _ hall]⟩
  · intro hall
    rw [hok, classify_of_all _ _ hall]
  · intro hall
    rw [hok, classify_of_not_all _ _ hall]

/-- Witness for C1 at a concrete call: a single candidate with the ASCII
payload `h` decodes to the string value `h` with no delimiter added. -/
theorem decode_text_iff_all_utf8_witness :
    fromQr ⟨none, none, [CandidateResult.ok [104]], 3, 4⟩ false =
      .ok (.str [104] 3) := by
  have h := decode_text_iff_all_utf8 ⟨none, none, [CandidateResult.ok [104]], 3, 4⟩
    false [[104]] rfl rfl
  have h2 := h.2.1 (by decide)
  simpa [List.intercalate] using h2

/-- C2 (evaluation at the failing input): with width 100 and height 200 both
provided and in range, the `to qr` branch configures the renderer by calling
`fit_width(100)` and then `fit_width(200)` — the height value is passed to
`fit_width`, and no `fit_height` call is made, so the claimed FitBoth
configuration (width constraint and height constraint both applied) is not
what the code performs. -/
theorem size_both_calls_fit_width_twice :
    applySize ImageBuilder.default (some 100) (some 200) 0 =
      .ok ⟨.Square, [.fitWidth 100, .fitWidth 200]⟩ ∧
    SizeCall.fitHeight 200 ∉ [SizeCall.fitWidth 100, SizeCall.fitWidth 200] ∧
    applySize ImageBuilder.default (some 100) (some 200) 0 ≠
      .ok ⟨.Square, [.fitWidth 100, .fitHeight 200]⟩ := by
  refine ⟨rfl, by decide, ?_⟩
  intro h
  have h2 := Except.ok.inj h
  simp [applySize, ImageBuilder.default, ImageBuilder.fit_width, u32MAX] at h2

/-- C4 (counterexample): a provided width of 0 is not rejected — the guard
only checks the upper bound, so `applySize` succeeds and records
`fit_width(0)`, contradicting the claim that a non-positive value is a hard
input error. -/
theorem size_zero_passes_validation :
    applySize ImageBuilder.default (some 0) none 0 =
      .ok ⟨.Square, [.fitWidth 0]⟩ ∧
    ∀ e, applySize ImageBuilder.default (some 0) none 0 ≠ .error e := by
  refine ⟨rfl, ?_⟩
  intro e h
  rw [show applySize ImageBuilder.default (some 0) none 0 =
    .ok ⟨.Square, [.fitWidth 0]⟩ from rfl] at h
  cases h

/-- C4 (amended): every provided width/height value that is at least
`u32::MAX` (4294967295) is a hard input error naming the bound; values
strictly below the bound (including 0, which is not rejected) pass
validation. In particular width 4294967295 errors and width 4294967294
succeeds. -/
theorem size_bound_validation (b : ImageBuilder) (width height : Option Nat)
    (head : Nat) :
    ((∀ w, width = some w → w < u32MAX) →
     (∀ h, height = some h → h < u32MAX) →
      ∃ b2, applySize b width height head = .ok b2) ∧
    ((∃ w, width = some w ∧ u32MAX ≤ w) ∨ (∃ h, height = some h ∧ u32MAX ≤ h) →
      applySize b width height head = .error (sizeError head)) ∧
    applySize b (some 4294967295) height head = .error (sizeError head) ∧
    (∃ b2, applySize b (some 4294967294) none head = .ok b2) ∧
    (∃ b2, applySize b (some 0) none head = .ok b2) := by
  refine ⟨?_, ?_, ?_, ?_, ?_⟩
  · intro hw hh
    cases width with
    | none =>
      cases height with
      | none => exact ⟨_, rfl⟩
      | some h => exact ⟨b.fit_height h, by simp [applySize, hh h rfl]⟩
    | some w =>
      cases height with
      | none => exact ⟨b.fit_width w, by simp [applySize, hw w rfl]⟩
      | some h =>
        exact ⟨(b.fit_width w).fit_width h, by simp [applySize, hw w rfl, hh h rfl]⟩
  · intro hbig
    cases width with
    | none =>
      cases height with
      | none =>
        rcases hbig with ⟨w, hw, _⟩ | ⟨h, hh, _⟩
        · cases hw
        · cases hh
      | some h =>
        rcases hbig with ⟨w, hw, _⟩ | ⟨h2, hh2, hge⟩
        · cases hw
        · obtain rfl : h2 = h := (Option.some.inj hh2).symm
          simp [applySize, Nat.not_lt.mpr hge]
    | some w =>
      cases height with
      | none =>
        rcases hbig with ⟨w2, hw2, hge⟩ | ⟨h, hh, _⟩
        · obtain rfl : w2 = w := (Option.some.inj hw2).symm
          simp [applySize, Nat.not_lt.mpr hge]
        · cases hh
      | some h =>
        rcases hbig with ⟨w2, hw2, hge⟩ | ⟨h2, hh2, hge⟩
        · obtain rfl : w2 = w := (Option.some.inj hw2).symm
          simp [applySize, Nat.not_lt.mpr hge]
        · obtain rfl : h2 = h := (Option.some.inj hh2).symm
          simp [applySize, Nat.not_lt.mpr hge]
  · cases height with
    | none => simp [applySize, u32MAX]
    | some h => simp [applySize, u32MAX]
  · exact ⟨b.fit_width 4294967294, by simp [applySize, u32MAX]⟩
  · exact ⟨b.fit_width 0, by simp [applySize, u32MAX]⟩

/-- Witness for C4 (amended) at concrete inputs: width 4294967295 is
rejected with the bound-naming error, and width 4294967294 passes. -/
theorem size_bound_validation_witness :
    applySize ImageBuilder.default (some 4294967295) none 0 =
      .error (sizeError 0) ∧
    ∃ b2, applySize ImageBuilder.default (some 4294967294) none 0 = .ok b2 := by
  have h := size_bound_validation ImageBuilder.default (some 4294967295) none 0
  have h2 := size_bound_validation ImageBuilder.default (some 4294967294) none 0
  exact ⟨h.2.2.1, h2.2.2.2.1⟩

/-- C5: the shape resolution of the `to qr` branch agrees, on every input,
with the spec-side resolver: unset resolves to Square, a name whose
upper-casing exactly matches one of the six recognized names resolves to that
shape, and any other string is the hard input error naming the allowed set. -/
theorem resolve_shape_matches_spec (shape_name : Option String) (head : Nat) :
    resolveShape shape_name head = specResolveShape shape_name head := by
  cases shape_name with
  | none => rfl
  | some s =>
    simp only [resolveShape, specResolveShape, specShapeOfName, Option.map]
    by_cases h1 : rustToUppercase s = "SQUARE"
    · simp [h1]
    · by_cases h2 : rustToUppercase s = "CIRCLE"
      · simp [h1, h2]
      · by_cases h3 : rustToUppercase s = "ROUNDEDSQUARE"
        · simp [h1, h2, h3]
        · by_cases h4 : rustToUppercase s = "VERTICAL"
          · simp [h1, h2, h3, h4]
          · by_cases h5 : rustToUppercase s = "HORIZONTAL"
            · simp [h1, h2, h3, h4, h5]
            · by_cases h6 : rustToUppercase s = "DIAMOND"
              · simp [h1, h2, h3, h4, h5, h6]
              · simp [h1, h2, h3, h4, h5, h6]

/-- C3: with `ignore-error` false, the first candidate that fails
identification or decoding (every candidate before it having succeeded)
aborts the whole call with the structured error labeled
"input contains incorrect data" that names the underlying failure; with
`ignore-error` true, every failing candidate is skipped and the return value
is computed from the successful payloads alone. -/
theorem decode_error_policy (env : FromQrEnv) (hload : env.loadErr = none) :
    (∀ pre c post err, env.candidates = pre ++ c :: post →
      (∀ p ∈ pre, (CandidateResult.payload p).isSome) →
      failErrorOf env.inputSpan c = some err →
      fromQr env false = .error err ∧ err.label = "input contains incorrect data") ∧
    fromQr env true =
      .ok (classify env.callHead (env.candidates.filterMap CandidateResult.payload)) := by
  constructor
  · intro pre c post err hsplit hpre herr
    have hcol : collectPayloads false env.inputSpan env.candidates = .error err := by
      rw [hsplit]
      exact collectPayloads_failfast env.inputSpan pre c post err hpre herr
    constructor
    · simp [fromQr, hload, hcol]
    · cases c with
      | identFail e => exact (Option.some.inj herr) ▸ rfl
      | decodeFail e => exact (Option.some.inj herr) ▸ rfl
      | ok p => simp [failErrorOf] at herr
  · exact fromQr_ok_of_collect env true _ hload
      (collectPayloads_ignore env.inputSpan env.candidates)

/-- Witness for C3 at a concrete call: one good candidate followed by a
failing one aborts with the structured error when `ignore-error` is false,
and with `ignore-error` true the same call returns only the good payload. -/
theorem decode_error_policy_witness :
    fromQr ⟨none, none, [CandidateResult.ok [104], CandidateResult.identFail "bad"], 3, 4⟩
      false =
      .error ⟨"input contains incorrect data",
              "part of data can not be identified: bad", some 4⟩ ∧
    fromQr ⟨none, none, [CandidateResult.ok [104], CandidateResult.identFail "bad"], 3, 4⟩
      true = .ok (classify 3 [[104]]) := by
  have h := decode_error_policy
    ⟨none, none, [CandidateResult.ok [104], CandidateResult.identFail "bad"], 3, 4⟩ rfl
  refine ⟨(h.1 [CandidateResult.ok [104]] (CandidateResult.identFail "bad") [] _
    rfl (by decide) rfl).1, ?_⟩
  have h2 := h.2
  simpa [CandidateResult.payload] using h2

/-- C6: a decode call in which zero candidates decode successfully — the
image had no symbols, or `ignore-error` is true and every candidate failed —
returns the empty string value `Text("")`, not a binary value and not an
error. -/
theorem decode_empty_text (env : FromQrEnv) (ign : Bool)
    (hload : env.loadErr = none)
    (h : env.candidates = [] ∨
         (ign = true ∧ ∀ c ∈ env.candidates, CandidateResult.payload c = none)) :
    fromQr env ign = .ok (.str [] env.callHead) := by
  rcases h with hnil | ⟨hign, hfail⟩
  · have hcol : collectPayloads ign env.inputSpan env.candidates = .ok [] := by
      rw [hnil]; rfl
    have := fromQr_ok_of_collect env ign [] hload hcol
    simpa [classify, stringBuf, List.intercalate] using this
  · subst hign
    have hcol : collectPayloads true env.inputSpan env.candidates = .ok [] := by
      rw [collectPayloads_ignore]
      have : env.candidates.filterMap CandidateResult.payload = [] :=
        List.filterMap_eq_nil_iff.mpr hfail
      rw [this]
    have := fromQr_ok_of_collect env true [] hload hcol
    simpa [classify, stringBuf, List.intercalate] using this

/-- Witness for C6 at concrete calls: an image with no candidates, and an
`ignore-error` call whose only candidates both fail, each yield the empty
string value. -/
theorem decode_empty_text_witness :
    fromQr ⟨none, none, [], 3, 4⟩ false = .ok (.str [] 3) ∧
    fromQr ⟨none, none,
      [CandidateResult.identFail "a", CandidateResult.decodeFail "b"], 3, 4⟩ true =
      .ok (.str [] 3) := by
  refine ⟨decode_empty_text ⟨none, none, [], 3, 4⟩ false rfl (Or.inl rfl), ?_⟩
  exact decode_empty_text _ true rfl (Or.inr ⟨rfl, by decide⟩)

/-- C7: when the image container codec fails to parse the input bytes, the
call fails with the structured error whose label names the codec error and
whose message names the classifier's best-guess format, and the result does
not depend on what the symbol finder would have yielded (symbol finding is
never attempted). -/
theorem decode_container_failure_fatal (env : FromQrEnv) (ign : Bool) (e : String)
    (hload : env.loadErr = some e) :
    fromQr env ign =
      .error ⟨"Unable to open image: " ++ e,
        "Input is guessed as " ++
          format_image (env.guess.getD ([], "unknown")).2 (env.guess.getD ([], "unknown")).1,
        some env.inputSpan⟩ ∧
    ∀ cs, fromQr { env with candidates := cs } ign = fromQr env ign := by
  constructor
  · simp [fromQr, hload]
  · intro cs
    simp [fromQr, hload]

/-- Witness for C7 at a concrete call: a PNG-guessed input whose container
decode fails with diagnostic `broken` yields the structured error naming
both, for any candidate list. -/
theorem decode_container_failure_fatal_witness :
    fromQr ⟨some (["png"], "image/png"), some "broken", [CandidateResult.ok [104]], 3, 4⟩
      false =
      .error ⟨"Unable to open image: broken",
        "Input is guessed as image/png (png)", some 4⟩ := by
  have h := decode_container_failure_fatal
    ⟨some (["png"], "image/png"), some "broken", [CandidateResult.ok [104]], 3, 4⟩
    false "broken" rfl
  simpa [format_image, String.intercalate] using h.1

set_option linter.unusedVariables false in
/-- C8: single-symbol round trip. For a valid UTF-8 payload `s` that the
encode pipeline turns into a PNG (`henc`), if the external chain — generator,
renderer, container codec, finder, decoder, all outside this repository —
recovers from that image exactly one successfully decoded candidate carrying
`s` (`hload`, `hchain`, the formalization of "length within the generator's
capacity" for the black-box primitives), then the decode pipeline returns the
string value `Text(s)`. -/
theorem decode_encode_roundtrip (ext : Externals) (p : ToQrParams)
    (env : FromQrEnv) (s png : List Nat) (ign : Bool)
    (hutf8 : utf8Check s = true)
    (henc : toQr ext { p with input := s } = .ok (.binary png p.callHead))
    (hload : env.loadErr = none)
    (hchain : env.candidates = [CandidateResult.ok s]) :
    fromQr env ign = .ok (.str s env.callHead) := by
  have hcol : collectPayloads ign env.inputSpan env.candidates = .ok [s] := by
    rw [hchain]; rfl
  have hok := fromQr_ok_of_collect env ign [s] hload hcol
  rw [hok, classify_of_all _ _ (by simp [hutf8])]
  simp [List.intercalate]

/-- Witness for C8 at a concrete call: the payload `hi` encodes to a PNG
under concrete external primitives, and decoding the resulting single
candidate returns the string `hi`. -/
theorem decode_encode_roundtrip_witness :
    fromQr ⟨none, none, [CandidateResult.ok [104, 105]], 7, 5⟩ true =
      .ok (.str [104, 105] 7) :=
  decode_encode_roundtrip
    ⟨fun _ => .ok 0, fun _ _ => 0, fun _ => .ok [1, 2, 3]⟩
    ⟨[], none, none, none, none, 3, 4⟩
    ⟨none, none, [CandidateResult.ok [104, 105]], 7, 5⟩
    [104, 105] [1, 2, 3] true (by decide) rfl rfl rfl

/-- C9: the encode pipeline never reads the `background` parameter (it is
referenced only from commented-out code), so two calls that differ only in
`background` produce identical results, for every behaviour of the external
primitives. -/
theorem encode_background_independent (ext : Externals) (p : ToQrParams)
    (b1 b2 : Option (List Int)) :
    toQr ext { p with background := b1 } = toQr ext { p with background := b2 } := rfl

/-- C10: an unrecognized non-empty shape name makes the `to qr` branch return
the "Unknown shape parameter" error for every payload, every width/height
value (validated or not), and every behaviour of the external generator —
the shape error precedes generation and size validation. -/
theorem unknown_shape_precedes_generation (ext : Externals) (p : ToQrParams)
    (s : String) (hs : p.shape_name = some s)
    (hunknown : rustToUppercase s ∉
      ["SQUARE", "CIRCLE", "ROUNDEDSQUARE", "VERTICAL", "HORIZONTAL", "DIAMOND"]) :
    toQr ext p = .error ⟨"Unknown shape parameter",
      "should be one of Square, Circle, RoundedSquare, Vertical, Horizontal, Diamond",
      some p.callHead⟩ := by
  simp only [List.mem_cons, List.mem_singleton, not_or] at hunknown
  obtain ⟨h1, h2, h3, h4, h5, h6⟩ := hunknown
  have hres : resolveShape p.shape_name p.callHead =
      .error ⟨"Unknown shape parameter",
        "should be one of Square, Circle, RoundedSquare, Vertical, Horizontal, Diamond",
        some p.callHead⟩ := by
    rw [hs]
    simp only [resolveShape, Option.map]
    simp [h1, h2, h3, h4, h5, h6]
  simp [toQr, hres]

/-- Witness for C10 at a concrete call: shape `hexagon` with a width at the
forbidden bound and a generator that always fails still yields the shape
error. -/
theorem unknown_shape_precedes_generation_witness :
    toQr ⟨fun _ => .error "generator failure", fun _ _ => 0, fun _ => .ok []⟩
      ⟨[104], some "hexagon", some 4294967295, none, none, 3, 4⟩ =
      .error ⟨"Unknown shape parameter",
        "should be one of Square, Circle, RoundedSquare, Vertical, Horizontal, Diamond",
        some 3⟩ :=
  unknown_shape_precedes_generation _ _ "hexagon" rfl (by decide)

end NuQr
